import Mathlib

/-!
Verification of the webhookd relay (src/webhookd/webhookd.py).

Shallow embedding of the core: the formatter (`escape_text`,
`format_message`), the durable queue operations (`remove_from_queue`,
append), and the delivery worker (`send_message`, `process_queue`).
JSON values are modelled by the inductive `Value`, queued messages by
`Msg`, and the worker's observable effects (queue file, sent file,
alert calls, send-attempt calls) by `WorkerState`.
-/

/-- A JSON value as it can appear in a webhook payload field. -/
inductive Value where
  | str (s : String)
  | int (n : Int)
  | bool (b : Bool)
  | null
  | list (xs : List Value)

/-- Python `repr` of a `Value` (as produced inside `str` of a list).
Faithful for strings without quote or escape characters. -/
def pyRepr : Value → String
  | Value.str s => "\x27" ++ s ++ "\x27"
  | Value.int n => toString n
  | Value.bool b => if b then "True" else "False"
  | Value.null => "None"
  | Value.list xs =>
      "[" ++ String.intercalate ", "
        (xs.attach.map (fun x => pyRepr x.1)) ++ "]"
termination_by v => sizeOf v
decreasing_by
  simp_wf
  have h := List.sizeOf_lt_of_mem x.2
  omega

/-- Python `str` of a `Value`: a string is returned as itself, every
other value prints as its `repr`. -/
def pyStr : Value → String
  | Value.str s => s
  | v => pyRepr v

/-- One character of the telegram escaping pass:
`re.sub(r"([_])", r"\\\1", text)` turns each underscore into
backslash-underscore and leaves every other character alone. -/
def escChar (c : Char) : List Char :=
  if c = '_' then ['\\', '_'] else [c]

/-- The telegram branch of `escape_text`: escape every underscore. -/
def telegramEscape (s : String) : String :=
  String.mk (s.data.flatMap escChar)

/-- `escape_text(text, platform)`: a non-string is coerced with `str`
and returned at once (before the platform check); a string is
underscore-escaped for the `telegram` platform and returned unchanged
for every other platform. -/
def escapeText (text : Value) (platform : String) : String :=
  match text with
  | Value.str s => if platform = "telegram" then telegramEscape s else s
  | v => pyStr v

/-- `true` when every underscore in the character list is immediately
preceded by a backslash (no "bare" underscore). -/
def noBare : List Char → Bool
  | [] => true
  | [c] => decide (c ≠ '_')
  | c1 :: c2 :: rest =>
      if c1 = '_' then false
      else if c1 = '\\' ∧ c2 = '_' then noBare rest
      else noBare (c2 :: rest)

/-- `true` when the list does not start with an underscore. -/
def headOk : List Char → Bool
  | [] => true
  | c :: _ => decide (c ≠ '_')

/-- Zero-pad a number to two digits, as `strftime` does. -/
def pad2 (n : Nat) : String :=
  if n < 10 then "0" ++ toString n else toString n

/-- Zero-pad a number to four digits, as `strftime` `%Y` does. -/
def pad4 (n : Nat) : String :=
  if n < 10 then "000" ++ toString n
  else if n < 100 then "00" ++ toString n
  else if n < 1000 then "0" ++ toString n
  else toString n

/-- Civil date (year, month, day) of a day count since 1970-01-01,
the Gregorian-calendar conversion performed by
`datetime.datetime.fromtimestamp(_, tz=datetime.timezone.utc)` for
non-negative timestamps. -/
def civilFromDays (days : Nat) : Nat × Nat × Nat :=
  let z := days + 719468
  let era := z / 146097
  let doe := z % 146097
  let yoe := (doe - doe / 1460 + doe / 36524 - doe / 146096) / 365
  let y := yoe + era * 400
  let doy := doe - (365 * yoe + yoe / 4 - yoe / 100)
  let mp := (5 * doy + 2) / 153
  let d := doy - (153 * mp + 2) / 5 + 1
  let m := if mp < 10 then mp + 3 else mp - 9
  (if m ≤ 2 then y + 1 else y, m, d)

/-- Render a non-negative POSIX-seconds value the way
`fromtimestamp(secs, tz=utc).strftime("%Y-%m-%d %H:%M:%S UTC")` does. -/
def renderUTC (secs : Nat) : String :=
  let days := secs / 86400
  let rem := secs % 86400
  let c := civilFromDays days
  pad4 c.1 ++ "-" ++ pad2 c.2.1 ++ "-" ++ pad2 c.2.2 ++ " " ++
    pad2 (rem / 3600) ++ ":" ++ pad2 (rem % 3600 / 60) ++ ":" ++
    pad2 (rem % 60) ++ " UTC"

/-- The `formatted_timestamp` expression of `format_message`:
`... if raw_timestamp else "N/A"` — Python truthiness, so both an
absent field (`None`) and the value `0` take the `"N/A"` branch; a
nonzero value is divided by 1000 and rendered in UTC (float division
followed by `strftime`, which floors to whole seconds). -/
def formattedTimestamp (raw : Option Nat) : String :=
  match raw with
  | some t => if t = 0 then "N/A" else renderUTC (t / 1000)
  | none => "N/A"

/-- The fields of a webhook event payload that `format_message` reads. -/
structure Body where
  site : Option Value := none
  description : Option Value := none
  controller : Option Value := none
  timestamp : Option Nat := none
  text : Option Value := none

/-- Label markup: `"**Label**" if platform == "discord" else "*Label*"`. -/
def boldLabel (platform l : String) : String :=
  if platform = "discord" then "**" ++ l ++ "**" else "*" ++ l ++ "*"

/-- The `text_parts` list built by `format_message`: four label:value
lines (with the source's exact column-aligning spaces), each value
escaped per-platform with absent fields defaulting to `"N/A"`, plus —
whenever the `text` field is present and is a list (`isinstance`
check, so also for an empty list) — an `Events:` header and one
`- <line>` entry per element. -/
def textParts (body : Body) (platform : String) : List String :=
  let base : List String := [
    boldLabel platform "Site" ++ ":        " ++
      escapeText (body.site.getD (Value.str "N/A")) platform,
    boldLabel platform "Description" ++ ": " ++
      escapeText (body.description.getD (Value.str "N/A")) platform,
    boldLabel platform "Controller" ++ ":  " ++
      escapeText (body.controller.getD (Value.str "N/A")) platform,
    boldLabel platform "Timestamp" ++ ":   " ++
      escapeText (Value.str (formattedTimestamp body.timestamp)) platform]
  match body.text with
  | some (Value.list xs) =>
      base ++ (boldLabel platform "Events:" ::
        xs.map (fun line => "- " ++ escapeText line platform))
  | _ => base

/-- `format_message(body, platform)`: the joined `text_parts`. -/
def formatMessage (body : Body) (platform : String) : String :=
  String.intercalate "\n" (textParts body platform)

/-- A queued message: `{"platform": ..., "body": ...}` with identity by
value equality (Python `dict` `==`). -/
structure Msg where
  platform : String
  body : String
deriving DecidableEq

/-- `remove_from_queue(message)`: keep the entries of the queue list
that are not equal to the message (`[msg for msg in queue if msg !=
message]`). -/
def removeFromQueue (queue : List Msg) (message : Msg) : List Msg :=
  queue.filter (fun msg => decide (msg ≠ message))

/-- `send_message(message)` with the two platform senders passed in as
the external capability: dispatch on the `platform` field, any other
platform returns `False`. -/
def sendMessage (tg dc : String → Bool) (message : Msg) : Bool :=
  if message.platform = "telegram" then tg message.body
  else if message.platform = "discord" then dc message.body
  else false

/-- The observable state touched by one run of the delivery worker:
the queue file, the sent file, the `send_email_alert` calls made
(subject, failing message) and the `send_message` calls made
(message, value of `retries` at the call). -/
structure WorkerState where
  queue : List Msg
  sent : List Msg
  alerts : List (String × Msg)
  attempts : List (Msg × Nat)

/-- The `while retries < send_retry_num` loop of `process_queue` for
one message, with `remaining = send_retry_num - retries` as the
structural fuel (the loop runs exactly while `retries <
send_retry_num`). Each iteration calls `send_message` (logged in
`attempts`); on success it removes the message from the queue file,
appends it to the sent file and breaks; on failure it increments
`retries` and loops. Returns the final value of `retries` and the
state. The send outcome is the external capability `send`, indexed by
the attempt number. -/
def attemptLoop (send : Msg → Nat → Bool) (message : Msg) :
    Nat → Nat → WorkerState → Nat × WorkerState
  | 0, retries, st => (retries, st)
  | remaining + 1, retries, st =>
      let st1 : WorkerState :=
        { st with attempts := st.attempts ++ [(message, retries)] }
      if send message retries then
        (retries, { st1 with
          queue := removeFromQueue st1.queue message,
          sent := st1.sent ++ [message] })
      else
        attemptLoop send message remaining (retries + 1) st1

/-- The per-message part of one pass of `process_queue`: run the retry
loop, then `if retries >= send_retry_num: send_email_alert("Message
Delivery Failed", ...)`. -/
def processMessage (num : Nat) (send : Msg → Nat → Bool) (message : Msg)
    (st : WorkerState) : WorkerState :=
  let r := attemptLoop send message num 0 st
  if num ≤ r.1 then
    { r.2 with alerts := r.2.alerts ++ [("Message Delivery Failed", message)] }
  else r.2

/-- The `for message in queue` loop of one pass, over a fixed snapshot
of the queue file. -/
def processSnapshot (num : Nat) (send : Msg → Nat → Bool) :
    List Msg → WorkerState → WorkerState
  | [], st => st
  | message :: rest, st =>
      processSnapshot num send rest (processMessage num send message st)

/-- One full pass of `process_queue`: snapshot the queue file under the
lock, then process every snapshotted message in order. -/
def processPass (num : Nat) (send : Msg → Nat → Bool)
    (st : WorkerState) : WorkerState :=
  processSnapshot num send st.queue st

/-- Several consecutive passes of `process_queue`; the send capability
may answer differently on every pass (`sendAt` is indexed by the pass
number first, the in-pass attempt number second). -/
def iterPass (num : Nat) (sendAt : Nat → Msg → Nat → Bool) :
    Nat → WorkerState → WorkerState
  | 0, st => st
  | k + 1, st =>
      iterPass num (fun p => sendAt (p + 1)) k
        (processPass num (sendAt 0) st)

/-- Number of queue entries equal to `m`. -/
def msgCount (m : Msg) (l : List Msg) : Nat :=
  l.countP (fun x => decide (x = m))

/-- Number of logged `send_message` calls made for `m`. -/
def attemptCount (m : Msg) (st : WorkerState) : Nat :=
  st.attempts.countP (fun a => decide (a.1 = m))

/-- Number of `send_email_alert("Message Delivery Failed", ...)` calls
made for `m`. -/
def failAlertCount (m : Msg) (st : WorkerState) : Nat :=
  st.alerts.countP (fun a => decide (a = ("Message Delivery Failed", m)))

/-- Number of sent-log entries equal to `m`. -/
def sentCount (m : Msg) (st : WorkerState) : Nat :=
  msgCount m st.sent

/-- Header lookup, `headers.get(key)`: `None` when the key is absent. -/
def lookupHeader (headers : List (String × String)) (key : String) :
    Option String :=
  match headers with
  | [] => none
  | (k, v) :: rest => if k = key then some v else lookupHeader rest key

/-- `validate_access_token(headers)`: raise HTTP 403 when
`headers.get("access_token") != WEBHOOK_SECRET` (an `Option`-level
comparison: a missing header is `None`, an unconfigured secret is
`None`). -/
def validateAccessToken (headers : List (String × String))
    (secret : Option String) : Except Nat Unit :=
  if lookupHeader headers "access_token" ≠ secret then Except.error 403
  else Except.ok ()

/-- Result of one request to a queueing endpoint: the queue file after
the request, and either the HTTP error status or the success body. -/
structure HandlerResult where
  queue : List Msg
  response : Except Nat String

/-- `POST /tg_msg` (`queue_telegram`): validate the token first — a 403
aborts before any queue write — then format for `telegram` and append
`{"platform": "telegram", "body": message_text}` to the queue file. -/
def queueTelegram (secret : Option String)
    (headers : List (String × String)) (body : Body)
    (queue : List Msg) : HandlerResult :=
  match validateAccessToken headers secret with
  | Except.error c => { queue := queue, response := Except.error c }
  | Except.ok _ =>
      { queue := queue ++ [⟨"telegram", formatMessage body "telegram"⟩],
        response := Except.ok "queued" }

/-- `POST /discord_msg` (`queue_discord`): same contract with platform
`discord`. -/
def queueDiscord (secret : Option String)
    (headers : List (String × String)) (body : Body)
    (queue : List Msg) : HandlerResult :=
  match validateAccessToken headers secret with
  | Except.error c => { queue := queue, response := Except.error c }
  | Except.ok _ =>
      { queue := queue ++ [⟨"discord", formatMessage body "discord"⟩],
        response := Except.ok "queued" }

lemma msgCount_removeFromQueue_self (q : List Msg) (m : Msg) :
    msgCount m (removeFromQueue q m) = 0 := by
  rw [msgCount, removeFromQueue, List.countP_filter, List.countP_eq_zero]
  intro a _
  simp only [Bool.and_eq_true, decide_eq_true_eq]
  intro h
  exact absurd h.1 h.2

lemma msgCount_removeFromQueue_ne (q : List Msg) (m m' : Msg)
    (h : m ≠ m') :
    msgCount m (removeFromQueue q m') = msgCount m q := by
  rw [msgCount, removeFromQueue, List.countP_filter, msgCount]
  apply List.countP_congr
  intro a _
  by_cases hm : a = m
  · subst hm
    have hne : a ≠ m' := fun hx => h hx
    simp [hne]
  · simp [hm]

lemma attemptLoop_alwaysFail (send : Msg → Nat → Bool) (m : Msg)
    (hfail : ∀ i, send m i = false) :
    ∀ (remaining retries : Nat) (st : WorkerState),
      attemptLoop send m remaining retries st =
        (retries + remaining,
         { st with attempts := st.attempts ++
             (List.range' retries remaining).map (fun i => (m, i)) }) := by
  intro remaining
  induction remaining with
  | zero => intro retries st; simp [attemptLoop]
  | succ n ih =>
      intro retries st
      rw [attemptLoop]
      simp only [hfail, ih, List.range'_succ, List.map_cons,
        List.append_assoc, List.singleton_append, Bool.false_eq_true,
        if_false]
      have harith : retries + 1 + n = retries + (n + 1) := by omega
      rw [harith]
example : renderUTC 1700000000 = "2023-11-14 22:13:20 UTC" := by decide
example : renderUTC 0 = "1970-01-01 00:00:00 UTC" := by decide
example : formattedTimestamp (some 1700000000000) = "2023-11-14 22:13:20 UTC" := by decide

example : telegramEscape "a_b" = "a\\_b" := by decide

lemma attemptLoop_succAt (send : Msg → Nat → Bool) (m : Msg) :
    ∀ (j remaining retries : Nat) (st : WorkerState),
      j < remaining →
      (∀ i, i < j → send m (retries + i) = false) →
      send m (retries + j) = true →
      attemptLoop send m remaining retries st =
        (retries + j,
         { st with
             queue := removeFromQueue st.queue m,
             sent := st.sent ++ [m],
             attempts := st.attempts ++
               (List.range' retries (j + 1)).map (fun i => (m, i)) }) := by
  intro j
  induction j with
  | zero =>
      intro remaining retries st hj hfail hsucc
      match remaining, hj with
      | n + 1, _ =>
        rw [attemptLoop]
        have hs : send m retries = true := by simpa using hsucc
        simp [hs, List.range'_succ]
  | succ j ih =>
      intro remaining retries st hj hfail hsucc
      match remaining, hj with
      | n + 1, hj =>
        rw [attemptLoop]
        have h0 : send m retries = false := by
          simpa using hfail 0 (by omega)
        simp only [h0, Bool.false_eq_true, if_false]
        rw [ih n (retries + 1) _ (by omega)
          (fun i hi => by
            have hx := hfail (i + 1) (by omega)
            rwa [show retries + (i + 1) = retries + 1 + i by omega] at hx)
          (by
            have hx := hsucc
            rwa [show retries + (j + 1) = retries + 1 + j by omega] at hx)]
        have harith : retries + 1 + j = retries + (j + 1) := by omega
        rw [harith]
        simp [List.range'_succ, List.append_assoc]

lemma processMessage_fail (num : Nat) (send : Msg → Nat → Bool) (m : Msg)
    (st : WorkerState) (hfail : ∀ i, send m i = false) :
    processMessage num send m st =
      { st with
          attempts := st.attempts ++
            (List.range' 0 num).map (fun i => (m, i)),
          alerts := st.alerts ++ [("Message Delivery Failed", m)] } := by
  simp [processMessage, attemptLoop_alwaysFail send m hfail]

lemma processMessage_succ (num : Nat) (send : Msg → Nat → Bool) (m : Msg)
    (st : WorkerState) (j : Nat) (hj : j < num)
    (hfail : ∀ i, i < j → send m i = false)
    (hsucc : send m j = true) :
    processMessage num send m st =
      { st with
          queue := removeFromQueue st.queue m,
          sent := st.sent ++ [m],
          attempts := st.attempts ++
            (List.range' 0 (j + 1)).map (fun i => (m, i)) } := by
  have h := attemptLoop_succAt send m j num 0 st hj
    (fun i hi => by simpa using hfail i hi) (by simpa using hsucc)
  simp only [processMessage, h]
  rw [if_neg (by simpa using Nat.not_le.mpr hj)]

lemma attemptLoop_other (send : Msg → Nat → Bool) (m m' : Msg)
    (hne : m ≠ m') :
    ∀ (remaining retries : Nat) (st : WorkerState),
      msgCount m (attemptLoop send m' remaining retries st).2.queue =
        msgCount m st.queue ∧
      msgCount m (attemptLoop send m' remaining retries st).2.sent =
        msgCount m st.sent ∧
      (attemptLoop send m' remaining retries st).2.alerts = st.alerts ∧
      attemptCount m (attemptLoop send m' remaining retries st).2 =
        attemptCount m st := by
  have hmm : (decide (m' = m)) = false := decide_eq_false fun h => hne h.symm
  intro remaining
  induction remaining with
  | zero => intro retries st; simp [attemptLoop]
  | succ n ih =>
      intro retries st
      rw [attemptLoop]
      by_cases hs : send m' retries = true
      · have hq := msgCount_removeFromQueue_ne st.queue m m' hne
        refine ⟨?_, ?_, ?_, ?_⟩
        · simpa [hs] using hq
        · simp [hs, msgCount, List.countP_append, hmm]
        · simp [hs]
        · simp [hs, attemptCount, List.countP_append, hmm]
      · have h1 := ih (retries + 1)
          { st with attempts := st.attempts ++ [(m', retries)] }
        simp only [Bool.not_eq_true] at hs
        simp only [hs, Bool.false_eq_true, if_false]
        refine ⟨h1.1, h1.2.1, h1.2.2.1, ?_⟩
        rw [h1.2.2.2]
        simp [attemptCount, List.countP_append, hmm]

lemma processMessage_other (num : Nat) (send : Msg → Nat → Bool)
    (m m' : Msg) (hne : m ≠ m') (st : WorkerState) :
    msgCount m (processMessage num send m' st).queue =
      msgCount m st.queue ∧
    msgCount m (processMessage num send m' st).sent =
      msgCount m st.sent ∧
    failAlertCount m (processMessage num send m' st) =
      failAlertCount m st ∧
    attemptCount m (processMessage num send m' st) =
      attemptCount m st := by
  have h := attemptLoop_other send m m' hne num 0 st
  have hpair : (decide (("Message Delivery Failed", m')
      = ("Message Delivery Failed", m))) = false := by
    apply decide_eq_false
    intro hx
    exact hne (congrArg Prod.snd hx).symm
  simp only [processMessage]
  by_cases hc : num ≤ (attemptLoop send m' num 0 st).1
  · rw [if_pos hc]
    refine ⟨h.1, h.2.1, ?_, h.2.2.2⟩
    have hne' : ¬ m' = m := fun hx => hne hx.symm
    simp [failAlertCount, List.countP_append, h.2.2.1, hpair, hne']
  · rw [if_neg hc]
    exact ⟨h.1, h.2.1, by simp [failAlertCount, h.2.2.1], h.2.2.2⟩

lemma processSnapshot_other (num : Nat) (send : Msg → Nat → Bool)
    (m : Msg) :
    ∀ (snap : List Msg) (st : WorkerState), (∀ x ∈ snap, x ≠ m) →
      msgCount m (processSnapshot num send snap st).queue =
        msgCount m st.queue ∧
      msgCount m (processSnapshot num send snap st).sent =
        msgCount m st.sent ∧
      failAlertCount m (processSnapshot num send snap st) =
        failAlertCount m st ∧
      attemptCount m (processSnapshot num send snap st) =
        attemptCount m st := by
  intro snap
  induction snap with
  | nil => intro st _; exact ⟨rfl, rfl, rfl, rfl⟩
  | cons a t ih =>
      intro st h
      have ha : m ≠ a := fun hx => (h a (by simp)) hx.symm
      have h1 := processMessage_other num send m a ha st
      have h2 := ih (processMessage num send a st)
        (fun x hx => h x (by simp [hx]))
      rw [processSnapshot]
      exact ⟨h2.1.trans h1.1, h2.2.1.trans h1.2.1,
        h2.2.2.1.trans h1.2.2.1, h2.2.2.2.trans h1.2.2.2⟩

lemma processSnapshot_append (num : Nat) (send : Msg → Nat → Bool) :
    ∀ (l1 l2 : List Msg) (st : WorkerState),
      processSnapshot num send (l1 ++ l2) st =
        processSnapshot num send l2 (processSnapshot num send l1 st) := by
  intro l1
  induction l1 with
  | nil => intro l2 st; rfl
  | cons a t ih => intro l2 st; simp [processSnapshot, ih]

lemma count_one_split (m : Msg) :
    ∀ (q : List Msg), msgCount m q = 1 →
      ∃ l1 l2, q = l1 ++ m :: l2 ∧
        (∀ x ∈ l1, x ≠ m) ∧ (∀ x ∈ l2, x ≠ m) := by
  intro q
  induction q with
  | nil => intro h; simp [msgCount] at h
  | cons a t ih =>
      intro h
      rw [msgCount, List.countP_cons] at h
      by_cases ha : a = m
      · have ht : msgCount m t = 0 := by
          rw [msgCount]
          rw [if_pos (show (decide (a = m)) = true by simp [ha])] at h
          omega
        refine ⟨[], t, by simp [ha], by simp, ?_⟩
        rw [msgCount, List.countP_eq_zero] at ht
        intro x hx hxm
        exact ht x hx (by simp [hxm])
      · have ht : msgCount m t = 1 := by
          rw [msgCount]
          simpa [ha] using h
        obtain ⟨l1, l2, hq, h1, h2⟩ := ih ht
        refine ⟨a :: l1, l2, by simp [hq], ?_, h2⟩
        intro x hx
        rcases List.mem_cons.mp hx with hx | hx
        · exact hx ▸ ha
        · exact h1 x hx

lemma countP_comp_self (m : Msg) (L : List Nat) :
    (L.countP ((fun a : Msg × Nat => decide (a.1 = m)) ∘ fun i => (m, i)))
      = L.length := by
  induction L with
  | nil => rfl
  | cons a t ih => simp [List.countP_cons, ih, Function.comp]

lemma pass_fail (num : Nat) (send : Msg → Nat → Bool) (m : Msg)
    (st : WorkerState)
    (hfail : ∀ i, send m i = false)
    (hone : msgCount m st.queue = 1) :
    msgCount m (processPass num send st).queue = 1 ∧
    failAlertCount m (processPass num send st) = failAlertCount m st + 1 ∧
    attemptCount m (processPass num send st) = attemptCount m st + num ∧
    msgCount m (processPass num send st).sent = msgCount m st.sent := by
  obtain ⟨l1, l2, hq, h1, h2⟩ := count_one_split m st.queue hone
  have hA := processSnapshot_other num send m l1 st h1
  have hB := processMessage_fail num send m
    (processSnapshot num send l1 st) hfail
  have hC := processSnapshot_other num send m l2
    (processMessage num send m (processSnapshot num send l1 st)) h2
  have hpass : processPass num send st =
      processSnapshot num send l2
        (processMessage num send m (processSnapshot num send l1 st)) := by
    rw [processPass, hq, processSnapshot_append]
    rfl
  rw [hpass]
  refine ⟨?_, ?_, ?_, ?_⟩
  · rw [hC.1, hB]
    show msgCount m (processSnapshot num send l1 st).queue = 1
    rw [hA.1, hone]
  · rw [hC.2.2.1, hB]
    have h5 : ((processSnapshot num send l1 st).alerts.countP
        (fun a => decide (a = ("Message Delivery Failed", m)))) =
        st.alerts.countP
          (fun a => decide (a = ("Message Delivery Failed", m))) :=
      hA.2.2.1
    simp [failAlertCount, List.countP_append, h5]
  · rw [hC.2.2.2, hB]
    have h6 : ((processSnapshot num send l1 st).attempts.countP
        (fun a => decide (a.1 = m))) =
        st.attempts.countP (fun a => decide (a.1 = m)) :=
      hA.2.2.2
    simp [attemptCount, List.countP_append, h6, countP_comp_self,
      List.length_range']
  · rw [hC.2.1, hB]
    show msgCount m (processSnapshot num send l1 st).sent
      = msgCount m st.sent
    exact hA.2.1

lemma pass_succ (num : Nat) (send : Msg → Nat → Bool) (m : Msg)
    (st : WorkerState) (j : Nat) (hj : j < num)
    (hfail : ∀ i, i < j → send m i = false)
    (hsucc : send m j = true)
    (hone : msgCount m st.queue = 1) :
    msgCount m (processPass num send st).queue = 0 ∧
    msgCount m (processPass num send st).sent = msgCount m st.sent + 1 ∧
    failAlertCount m (processPass num send st) = failAlertCount m st ∧
    attemptCount m (processPass num send st)
      = attemptCount m st + (j + 1) := by
  obtain ⟨l1, l2, hq, h1, h2⟩ := count_one_split m st.queue hone
  have hA := processSnapshot_other num send m l1 st h1
  have hB := processMessage_succ num send m
    (processSnapshot num send l1 st) j hj hfail hsucc
  have hC := processSnapshot_other num send m l2
    (processMessage num send m (processSnapshot num send l1 st)) h2
  have hpass : processPass num send st =
      processSnapshot num send l2
        (processMessage num send m (processSnapshot num send l1 st)) := by
    rw [processPass, hq, processSnapshot_append]
    rfl
  rw [hpass]
  refine ⟨?_, ?_, ?_, ?_⟩
  · rw [hC.1, hB]
    show msgCount m (removeFromQueue
      (processSnapshot num send l1 st).queue m) = 0
    exact msgCount_removeFromQueue_self _ m
  · rw [hC.2.1, hB]
    have h5 : ((processSnapshot num send l1 st).sent.countP
        (fun x => decide (x = m))) =
        st.sent.countP (fun x => decide (x = m)) :=
      hA.2.1
    simp [msgCount, List.countP_append, h5]
  · rw [hC.2.2.1, hB]
    show failAlertCount m (processSnapshot num send l1 st)
      = failAlertCount m st
    exact hA.2.2.1
  · rw [hC.2.2.2, hB]
    have h6 : ((processSnapshot num send l1 st).attempts.countP
        (fun a => decide (a.1 = m))) =
        st.attempts.countP (fun a => decide (a.1 = m)) :=
      hA.2.2.2
    simp [attemptCount, List.countP_append, h6, countP_comp_self,
      List.length_range']

lemma iter_fail (num : Nat) (m : Msg) :
    ∀ (k : Nat) (sendAt : Nat → Msg → Nat → Bool) (st : WorkerState),
      (∀ p i, sendAt p m i = false) →
      msgCount m st.queue = 1 →
      msgCount m (iterPass num sendAt k st).queue = 1 ∧
      failAlertCount m (iterPass num sendAt k st)
        = failAlertCount m st + k ∧
      attemptCount m (iterPass num sendAt k st)
        = attemptCount m st + k * num := by
  intro k
  induction k with
  | zero => intro sendAt st _ hone; exact ⟨hone, by simp [iterPass], by simp [iterPass]⟩
  | succ n ih =>
      intro sendAt st hfail hone
      rw [iterPass]
      have hp := pass_fail num (sendAt 0) m st (hfail 0) hone
      have hr := ih (fun p => sendAt (p + 1))
        (processPass num (sendAt 0) st) (fun p i => hfail (p + 1) i) hp.1
      refine ⟨hr.1, ?_, ?_⟩
      · rw [hr.2.1, hp.2.1]
        omega
      · rw [hr.2.2, hp.2.2.1]
        have : (n + 1) * num = num + n * num := by ring
        omega

lemma pyRepr_list (xs : List Value) :
    pyRepr (Value.list xs) =
      "[" ++ String.intercalate ", " (xs.map pyRepr) ++ "]" := by
  rw [pyRepr]
  rw [List.attach_map_val xs pyRepr]

lemma noBare_escape (l : List Char) :
    noBare (l.flatMap escChar) = true ∧
    headOk (l.flatMap escChar) = true := by
  induction l with
  | nil => exact ⟨rfl, rfl⟩
  | cons c t ih =>
      rw [List.flatMap_cons]
      by_cases hc : c = '_'
      · rw [hc]
        rw [show escChar '_' = ['\\', '_'] from rfl]
        constructor
        · show noBare ('\\' :: '_' :: t.flatMap escChar) = true
          rw [noBare, if_neg (by decide), if_pos (by decide)]
          exact ih.1
        · rfl
      · rw [show escChar c = [c] from if_neg hc]
        constructor
        · show noBare (c :: t.flatMap escChar) = true
          rcases hu : t.flatMap escChar with _ | ⟨d, u⟩
          · rw [noBare]
            simp [hc]
          · have hd : d ≠ '_' := by
              have h2 := ih.2
              rw [hu] at h2
              simpa [headOk] using h2
            rw [noBare, if_neg hc, if_neg (fun hx => hd hx.2)]
            have h1 := ih.1
            rw [hu] at h1
            exact h1
        · show headOk (c :: t.flatMap escChar) = true
          simp [headOk, hc]

lemma noBare_telegramEscape (s : String) :
    noBare (telegramEscape s).data = true :=
  (noBare_escape s.data).1

/-- C1: in one pass of the delivery worker, a queued message whose
sender fails on every attempt is attempted exactly `send_retry_num`
times, triggers exactly one `send_email_alert` call with subject
"Message Delivery Failed", and is still present in the queue after
the pass (stated for a message occurring once in the snapshot; the
counts are deltas over whatever the logs already held). -/
theorem C1_always_fail_pass (num : Nat) (send : Msg → Nat → Bool)
    (m : Msg) (st : WorkerState)
    (hfail : ∀ i, send m i = false)
    (hone : msgCount m st.queue = 1) :
    attemptCount m (processPass num send st) = attemptCount m st + num ∧
    failAlertCount m (processPass num send st)
      = failAlertCount m st + 1 ∧
    msgCount m (processPass num send st).queue = 1 := by
  have h := pass_fail num send m st hfail hone
  exact ⟨h.2.2.1, h.2.1, h.1⟩

theorem C1_witness :
    attemptCount ⟨"telegram", "hello"⟩
        (processPass 2 (fun _ _ => false)
          ⟨[⟨"telegram", "hello"⟩], [], [], []⟩)
      = attemptCount ⟨"telegram", "hello"⟩
          ⟨[⟨"telegram", "hello"⟩], [], [], []⟩ + 2 ∧
    failAlertCount ⟨"telegram", "hello"⟩
        (processPass 2 (fun _ _ => false)
          ⟨[⟨"telegram", "hello"⟩], [], [], []⟩)
      = failAlertCount ⟨"telegram", "hello"⟩
          ⟨[⟨"telegram", "hello"⟩], [], [], []⟩ + 1 ∧
    msgCount ⟨"telegram", "hello"⟩
        (processPass 2 (fun _ _ => false)
          ⟨[⟨"telegram", "hello"⟩], [], [], []⟩).queue = 1 :=
  C1_always_fail_pass 2 (fun _ _ => false) ⟨"telegram", "hello"⟩
    ⟨[⟨"telegram", "hello"⟩], [], [], []⟩ (fun _ => rfl) (by decide)

/-- C2: in one pass of the delivery worker, a queued message whose
sender first succeeds on attempt `j` (0-based; the claim's Nth attempt
is `N = j + 1 ≤ send_retry_num`) is removed from the queue, appended
to the sent log exactly once, and triggers no alert (stated for a
message occurring once in the snapshot). -/
theorem C2_success_pass (num : Nat) (send : Msg → Nat → Bool)
    (m : Msg) (st : WorkerState) (j : Nat)
    (hj : j < num)
    (hfail : ∀ i, i < j → send m i = false)
    (hsucc : send m j = true)
    (hone : msgCount m st.queue = 1) :
    msgCount m (processPass num send st).queue = 0 ∧
    msgCount m (processPass num send st).sent
      = msgCount m st.sent + 1 ∧
    failAlertCount m (processPass num send st) = failAlertCount m st := by
  have h := pass_succ num send m st j hj hfail hsucc hone
  exact ⟨h.1, h.2.1, h.2.2.1⟩

theorem C2_witness :
    msgCount ⟨"discord", "hi"⟩
      (processPass 3 (fun _ i => decide (0 < i))
        ⟨[⟨"discord", "hi"⟩], [], [], []⟩).queue = 0 ∧
    msgCount ⟨"discord", "hi"⟩
        (processPass 3 (fun _ i => decide (0 < i))
          ⟨[⟨"discord", "hi"⟩], [], [], []⟩).sent
      = msgCount ⟨"discord", "hi"⟩
          (⟨[⟨"discord", "hi"⟩], [], [], []⟩ : WorkerState).sent + 1 ∧
    failAlertCount ⟨"discord", "hi"⟩
        (processPass 3 (fun _ i => decide (0 < i))
          ⟨[⟨"discord", "hi"⟩], [], [], []⟩)
      = failAlertCount ⟨"discord", "hi"⟩
          ⟨[⟨"discord", "hi"⟩], [], [], []⟩ :=
  C2_success_pass 3 (fun _ i => decide (0 < i)) ⟨"discord", "hi"⟩
    ⟨[⟨"discord", "hi"⟩], [], [], []⟩ 1 (by omega)
    (fun i hi => by
      have hz : i = 0 := by omega
      rw [hz]
      rfl)
    rfl (by decide)

/-- C6: `remove_from_queue(msg)` removes every entry structurally
equal to `msg` — none remains in a subsequent snapshot, even when
duplicates existed — and the remaining entries form a sublist of the
original queue (original order preserved) in which every entry not
equal to `msg` keeps its original multiplicity. -/
theorem C6_remove_all_duplicates (q : List Msg) (m : Msg) :
    msgCount m (removeFromQueue q m) = 0 ∧
    List.Sublist (removeFromQueue q m) q ∧
    ∀ x, x ≠ m → msgCount x (removeFromQueue q m) = msgCount x q := by
  refine ⟨msgCount_removeFromQueue_self q m, ?_, ?_⟩
  · exact List.filter_sublist q
  · intro x hx
    exact msgCount_removeFromQueue_ne q x m hx

theorem C6_witness :
    msgCount ⟨"telegram", "a"⟩
      (removeFromQueue [⟨"telegram", "a"⟩, ⟨"discord", "b"⟩,
        ⟨"telegram", "a"⟩] ⟨"telegram", "a"⟩) = 0 ∧
    msgCount ⟨"discord", "b"⟩
        (removeFromQueue [⟨"telegram", "a"⟩, ⟨"discord", "b"⟩,
          ⟨"telegram", "a"⟩] ⟨"telegram", "a"⟩)
      = msgCount ⟨"discord", "b"⟩ [⟨"telegram", "a"⟩, ⟨"discord", "b"⟩,
          ⟨"telegram", "a"⟩] :=
  ⟨(C6_remove_all_duplicates [⟨"telegram", "a"⟩, ⟨"discord", "b"⟩,
      ⟨"telegram", "a"⟩] ⟨"telegram", "a"⟩).1,
   (C6_remove_all_duplicates [⟨"telegram", "a"⟩, ⟨"discord", "b"⟩,
      ⟨"telegram", "a"⟩] ⟨"telegram", "a"⟩).2.2 ⟨"discord", "b"⟩
     (by decide)⟩

/-- C8: `send_message` returns failure for every message whose
platform is neither "telegram" nor "discord", whatever the platform
senders do; consequently over `k` consecutive worker passes such a
message is attempted `send_retry_num` times per pass, fires one
"Message Delivery Failed" alert per pass, and stays in the queue
(stated for a message occurring once in the queue). -/
theorem C8_unknown_platform (num : Nat)
    (tgAPI dcAPI : Nat → Nat → String → Bool) (m : Msg)
    (st : WorkerState) (k : Nat)
    (hp1 : m.platform ≠ "telegram") (hp2 : m.platform ≠ "discord")
    (hone : msgCount m st.queue = 1) :
    (∀ tg dc, sendMessage tg dc m = false) ∧
    msgCount m (iterPass num
      (fun p msg i => sendMessage (tgAPI p i) (dcAPI p i) msg)
      k st).queue = 1 ∧
    failAlertCount m (iterPass num
      (fun p msg i => sendMessage (tgAPI p i) (dcAPI p i) msg) k st)
      = failAlertCount m st + k ∧
    attemptCount m (iterPass num
      (fun p msg i => sendMessage (tgAPI p i) (dcAPI p i) msg) k st)
      = attemptCount m st + k * num := by
  have hsend : ∀ tg dc, sendMessage tg dc m = false := by
    intro tg dc
    rw [sendMessage, if_neg hp1, if_neg hp2]
  have h := iter_fail num m k
    (fun p msg i => sendMessage (tgAPI p i) (dcAPI p i) msg) st
    (fun p i => hsend (tgAPI p i) (dcAPI p i)) hone
  exact ⟨hsend, h.1, h.2.1, h.2.2⟩

theorem C8_witness :
    sendMessage (fun _ => true) (fun _ => true) ⟨"slack", "x"⟩
      = false ∧
    failAlertCount ⟨"slack", "x"⟩
        (iterPass 1 (fun p msg i => sendMessage
          ((fun _ _ _ => true) p i) ((fun _ _ _ => true) p i) msg) 2
          ⟨[⟨"slack", "x"⟩], [], [], []⟩)
      = failAlertCount ⟨"slack", "x"⟩
          ⟨[⟨"slack", "x"⟩], [], [], []⟩ + 2 :=
  ⟨(C8_unknown_platform 1 (fun _ _ _ => true) (fun _ _ _ => true)
      ⟨"slack", "x"⟩ ⟨[⟨"slack", "x"⟩], [], [], []⟩ 2
      (by decide) (by decide) (by decide)).1 (fun _ => true)
      (fun _ => true),
   (C8_unknown_platform 1 (fun _ _ _ => true) (fun _ _ _ => true)
      ⟨"slack", "x"⟩ ⟨[⟨"slack", "x"⟩], [], [], []⟩ 2
      (by decide) (by decide) (by decide)).2.2.1⟩

/-- C7: a POST to /tg_msg or /discord_msg whose access_token header is
missing or differs from the configured secret is rejected with HTTP
403 before any queue write, and the queue file is unchanged. -/
theorem C7_auth_reject (s : String) (headers : List (String × String))
    (body : Body) (q : List Msg)
    (h : lookupHeader headers "access_token" ≠ some s) :
    (queueTelegram (some s) headers body q).response
      = Except.error 403 ∧
    (queueTelegram (some s) headers body q).queue = q ∧
    (queueDiscord (some s) headers body q).response
      = Except.error 403 ∧
    (queueDiscord (some s) headers body q).queue = q := by
  have hv : validateAccessToken headers (some s) = Except.error 403 := by
    rw [validateAccessToken, if_pos h]
  rw [queueTelegram, queueDiscord, hv]
  exact ⟨rfl, rfl, rfl, rfl⟩

theorem C7_witness :
    (queueTelegram (some "secret") [("x", "y")] {} []).response
      = Except.error 403 ∧
    (queueTelegram (some "secret") [("x", "y")] {} []).queue = [] ∧
    (queueDiscord (some "secret") [("x", "y")] {} []).response
      = Except.error 403 ∧
    (queueDiscord (some "secret") [("x", "y")] {} []).queue = [] :=
  C7_auth_reject "secret" [("x", "y")] {} [] (by decide)

/-- C9: `validate_access_token` raises 403 exactly when the
access_token header value (None when missing) differs from the
configured secret (None when unconfigured); in particular with no
secret configured, a request with no access_token header passes. -/
theorem C9_auth_iff (headers : List (String × String))
    (secret : Option String) :
    (validateAccessToken headers secret = Except.error 403 ↔
      lookupHeader headers "access_token" ≠ secret) ∧
    (lookupHeader headers "access_token" = none →
      validateAccessToken headers none = Except.ok ()) := by
  constructor
  · constructor
    · intro h
      by_contra hc
      rw [validateAccessToken, if_neg (fun hx => hx hc)] at h
      exact Except.noConfusion h
    · intro h
      rw [validateAccessToken, if_pos h]
  · intro h
    rw [validateAccessToken, if_neg (by rw [h]; exact fun hx => hx rfl)]

theorem C9_witness :
    (validateAccessToken [("access_token", "zzz")] (some "abc")
        = Except.error 403 ↔
      lookupHeader [("access_token", "zzz")] "access_token"
        ≠ some "abc") ∧
    validateAccessToken [] none = Except.ok () :=
  ⟨(C9_auth_iff [("access_token", "zzz")] (some "abc")).1,
   (C9_auth_iff [] none).2 rfl⟩

/-- C10: when `Site`, `description` or `Controller` is absent from the
payload, the corresponding line is still emitted, with the literal
value `N/A` (escaped per-platform) supplied by the `.get(key, "N/A")`
default. -/
theorem C10_missing_field_na (body : Body) (platform : String) :
    (body.site = none → (textParts body platform).get? 0 =
      some (boldLabel platform "Site" ++ ":        " ++
        escapeText (Value.str "N/A") platform)) ∧
    (body.description = none → (textParts body platform).get? 1 =
      some (boldLabel platform "Description" ++ ": " ++
        escapeText (Value.str "N/A") platform)) ∧
    (body.controller = none → (textParts body platform).get? 2 =
      some (boldLabel platform "Controller" ++ ":  " ++
        escapeText (Value.str "N/A") platform)) := by
  refine ⟨?_, ?_, ?_⟩ <;>
    · intro h
      simp only [textParts]
      split <;> simp [h]

theorem C10_witness :
    (textParts {} "telegram").get? 0 =
      some (boldLabel "telegram" "Site" ++ ":        " ++
        escapeText (Value.str "N/A") "telegram") ∧
    (textParts {} "telegram").get? 1 =
      some (boldLabel "telegram" "Description" ++ ": " ++
        escapeText (Value.str "N/A") "telegram") ∧
    (textParts {} "telegram").get? 2 =
      some (boldLabel "telegram" "Controller" ++ ":  " ++
        escapeText (Value.str "N/A") "telegram") :=
  ⟨(C10_missing_field_na {} "telegram").1 rfl,
   (C10_missing_field_na {} "telegram").2.1 rfl,
   (C10_missing_field_na {} "telegram").2.2 rfl⟩

/-- C3 (counterexample): a payload carrying `timestamp = 0` — a
present milliseconds-since-epoch value the claim says must be
converted (0 ms is 1970-01-01 00:00:00 UTC) — renders the Timestamp
line as `N/A`, because the code tests Python truthiness of the raw
value, not presence of the field. -/
theorem C3_counterexample :
    (textParts { timestamp := some 0 } "discord").get? 3 =
      some "**Timestamp**:   N/A" ∧
    "**Timestamp**:   " ++ renderUTC (0 / 1000) =
      "**Timestamp**:   1970-01-01 00:00:00 UTC" ∧
    ("**Timestamp**:   N/A" : String) ≠
      "**Timestamp**:   1970-01-01 00:00:00 UTC" := by
  refine ⟨by decide, by decide, by decide⟩

/-- C3 (amended): the Timestamp line renders the `timestamp` field as
follows — present and nonzero: the value divided by 1000 converted to
UTC and rendered `YYYY-MM-DD HH:MM:SS UTC`; absent or equal to 0
(both falsy in Python): exactly `N/A`. -/
theorem C3_amended_timestamp_line (body : Body) (platform : String) :
    (textParts body platform).get? 3 =
      some (boldLabel platform "Timestamp" ++ ":   " ++
        escapeText (Value.str
          (match body.timestamp with
           | some t => if t = 0 then "N/A" else renderUTC (t / 1000)
           | none => "N/A")) platform) := by
  simp only [textParts]
  split <;> rfl

/-- C4 (counterexample): for the non-string value `["a_b"]` on the
`telegram` platform the claim requires coercion followed by telegram
escaping (giving `['a\_b']`), but `escape_text` returns the bare
coercion `['a_b']`, underscore unescaped, because the non-string
branch returns before the platform check. -/
theorem C4_counterexample :
    escapeText (Value.list [Value.str "a_b"]) "telegram"
      = "[\x27a_b\x27]" ∧
    telegramEscape "[\x27a_b\x27]" = "[\x27a\\_b\x27]" ∧
    ("[\x27a_b\x27]" : String) ≠ "[\x27a\\_b\x27]" := by
  refine ⟨?_, by decide, by decide⟩
  show pyStr (Value.list [Value.str "a_b"]) = "[\x27a_b\x27]"
  rw [show pyStr (Value.list [Value.str "a_b"])
      = pyRepr (Value.list [Value.str "a_b"]) from rfl]
  rw [pyRepr_list]
  simp only [List.map_cons, List.map_nil]
  rw [show pyRepr (Value.str "a_b") = "\x27a_b\x27" from by
    simp [pyRepr]]
  decide

/-- C4 (amended): escaping applies only to string values — for
`telegram` every underscore of a string value is backslash-escaped (no
bare underscore remains in the output), for any other platform string
values pass through unchanged — while a non-string value is coerced to
its `str` representation and returned with no escaping applied. -/
theorem C4_amended_escaping (v : Value) (p : String) :
    (∀ s, v = Value.str s → p = "telegram" →
      escapeText v p = telegramEscape s ∧
        noBare (escapeText v p).data = true) ∧
    (∀ s, v = Value.str s → p ≠ "telegram" → escapeText v p = s) ∧
    ((∀ s, v ≠ Value.str s) → escapeText v p = pyStr v) := by
  refine ⟨?_, ?_, ?_⟩
  · rintro s rfl rfl
    refine ⟨rfl, ?_⟩
    show noBare (telegramEscape s).data = true
    exact noBare_telegramEscape s
  · rintro s rfl hp
    show (if p = "telegram" then telegramEscape s else s) = s
    rw [if_neg hp]
  · intro h
    rcases v with s | n | b | _ | xs
    · exact absurd rfl (h s)
    all_goals rfl

theorem C4_witness :
    escapeText (Value.str "a_b") "telegram" = telegramEscape "a_b" ∧
    noBare (escapeText (Value.str "a_b") "telegram").data = true :=
  (C4_amended_escaping (Value.str "a_b") "telegram").1 "a_b" rfl rfl

/-- C5 (counterexample): a payload whose `text` field is the empty
list still produces the `Events:` header — the code checks only
`isinstance(body["text"], list)`, not non-emptiness — contradicting
the claim that an empty sequence produces no header. -/
theorem C5_counterexample :
    textParts { text := some (Value.list []) } "telegram" =
      ["*Site*:        N/A", "*Description*: N/A",
       "*Controller*:  N/A", "*Timestamp*:   N/A", "*Events:*"] ∧
    (textParts { text := some (Value.list []) } "telegram").get? 4 =
      some "*Events:*" := by
  refine ⟨by decide, by decide⟩

/-- C5 (amended): the formatter always emits exactly four label:value
lines, and emits the `Events:` header (followed by one `- <line>` per
element) if and only if the `text` field is present and is a list —
including the empty list, which yields the header with zero
entries. -/
theorem C5_amended_events_header (body : Body) (platform : String) :
    ((textParts body platform).length =
      match body.text with
      | some (Value.list xs) => 5 + xs.length
      | _ => 4) ∧
    ((textParts body platform).get? 4 =
        some (boldLabel platform "Events:") ↔
      ∃ xs, body.text = some (Value.list xs)) := by
  constructor
  · simp only [textParts]
    split
    · simp [List.length_append]
      omega
    · rfl
  · constructor
    · intro h
      by_contra hc
      rw [textParts] at h
      revert h
      split
      · intro h4
        rename_i heq
        exact hc ⟨_, heq⟩
      · intro h
        simp at h
    · rintro ⟨xs, hxs⟩
      simp only [textParts, hxs]
      rfl

theorem C5_witness :
    (textParts { text := some (Value.list [Value.str "a"]) }
        "discord").length = 5 + 1 ∧
    (textParts { text := some (Value.list [Value.str "a"]) }
        "discord").get? 4 = some (boldLabel "discord" "Events:") :=
  ⟨by
    have h := (C5_amended_events_header
      { text := some (Value.list [Value.str "a"]) } "discord").1
    simpa using h,
   (C5_amended_events_header
      { text := some (Value.list [Value.str "a"]) } "discord").2.mpr
     ⟨[Value.str "a"], rfl⟩⟩
